import Mathlib

/-!
Shallow embedding of the HTU21D humidity/temperature driver
(`src/Particle/GreenMcp/lib/SparkFunHTU21D.cpp`) and proofs about it.

Machine integers are modelled as `Nat` with explicit `% 2^w` where the C
types truncate (`byte` is `% 256`, `uint16_t` is `% 65536`); the 24-bit CRC
working register lives in `uint32_t` in the source and never exceeds
`2^24`, so no truncation is needed there.  `float` arithmetic in the unit
conversions is idealised as exact rational arithmetic over `ℚ`, with the
decimal literals `125.0 / 65536.0 - 6.0` and `175.72 / 65536.0 - 46.85`
rendered as the exact rationals they denote.
-/

namespace HTU21D

/-- Constant `MAX_WAIT` from the source (`#define MAX_WAIT 100`). -/
def MAX_WAIT : Nat := 100

/-- Constant `DELAY_INTERVAL` from the source (`#define DELAY_INTERVAL 10`). -/
def DELAY_INTERVAL : Nat := 10

/-- Constant `MAX_COUNTER` from the source (`#define MAX_COUNTER (MAX_WAIT/DELAY_INTERVAL)`). -/
def MAX_COUNTER : Nat := MAX_WAIT / DELAY_INTERVAL

/-- Modelled from the spec: the error sentinels `ERROR_I2C_TIMEOUT` and
`ERROR_BAD_CRC` are `#define`d in the header `SparkFunHTU21D.h`, which is not
among the source files; the `.cpp` comments document them ("Returns 998 if
I2C timed out"), matching the spec's legacy sentinel convention. -/
def ERROR_I2C_TIMEOUT : Nat := 998

/-- Modelled from the spec: see `ERROR_I2C_TIMEOUT`; the `.cpp` comments
document "Returns 999 if CRC is wrong". -/
def ERROR_BAD_CRC : Nat := 999

/-- Constant `SHIFTED_DIVISOR` from the source: the 9-bit CRC polynomial
`0x0131` shifted to the far left of three bytes. -/
def SHIFTED_DIVISOR : Nat := 0x988000

/-- The 16-iteration loop of `HTU21D::checkCRC`.  The call with `n` rounds
remaining is loop iteration `i = 16 - n`, so the bit examined is
`23 - i = n + 7` when `n ≥ 1`; we phrase the examined bit of the round that
has `n+1` rounds remaining as `n + 8`.  Each round conditionally XORs the
divisor into the remainder and then shifts the divisor right by one. -/
def crcRun (rem d : Nat) : Nat → Nat
  | 0 => rem
  | n + 1 => crcRun (if rem.testBit (n + 8) then rem ^^^ d else rem) (d >>> 1) n

/-- Embedding of `HTU21D::checkCRC(uint16_t message_from_sensor, uint8_t
check_value_from_sensor)`: pad the message with 8 bits, OR in the check
value, run 16 rounds of polynomial division starting from divisor
`SHIFTED_DIVISOR`, and return the remainder cast to `byte`. -/
def checkCRC (message_from_sensor check_value_from_sensor : Nat) : Nat :=
  let remainder := ((message_from_sensor % 65536) <<< 8) ||| (check_value_from_sensor % 256)
  crcRun remainder SHIFTED_DIVISOR 16 % 256

/-- The forward CRC-8 computation: dividing the padded message alone (check
byte `0`) leaves, in the low 8 bits of the remainder, the checksum the
sensor would transmit (spec §4.2 step 4). -/
def crc8 (message : Nat) : Nat := checkCRC message 0

/-- One transport behavior seen by a single `readValue` call.  The two-wire
bus is an external collaborator (spec §6): `avail k` is the byte count that
`requestFrom(HTU21D_ADDRESS, 3)` reports on the k-th polling attempt
(0-indexed), and `msb`, `lsb`, `checksum` are the three bytes `read()`
delivers once the engine fetches them. -/
structure I2CBehavior where
  avail : Nat → Nat
  msb : Nat
  lsb : Nat
  checksum : Nat

/-- The polling loop of `HTU21D::readValue`:
`for (counter = 0, toRead = 0; counter < MAX_COUNTER && toRead != 3; counter++)
 { delay(DELAY_INTERVAL); toRead = requestFrom(...); }`.
The loop guard bounds the iteration count by `MAX_COUNTER - counter`, which
the explicit `fuel` argument carries (the top-level call passes
`fuel = MAX_COUNTER` with `counter = 0`, and `fuel` decreases in lockstep
with `counter` increasing, so the guard fails no later than the fuel runs
out).  `toRead` and the result of `requestFrom` are C `byte`s, hence `% 256`.
Returns the final `(counter, toRead)` pair. -/
def pollFuel (avail : Nat → Nat) : Nat → Nat → Nat → Nat × Nat
  | 0, counter, toRead => (counter, toRead)
  | fuel + 1, counter, toRead =>
      if counter < MAX_COUNTER ∧ toRead ≠ 3 then
        pollFuel avail fuel (counter + 1) (avail counter % 256)
      else (counter, toRead)

/-- The state of `counter` and `toRead` when the polling loop of
`HTU21D::readValue` exits, for transport behavior `b`. -/
def pollResult (b : I2CBehavior) : Nat × Nat := pollFuel b.avail MAX_COUNTER 0 0

/-- The raw 16-bit value `((uint16_t) msb << 8) | (uint16_t) lsb` assembled
by `HTU21D::readValue`; `msb` and `lsb` are C `byte`s, hence `% 256`. -/
def rawValueOf (b : I2CBehavior) : Nat := ((b.msb % 256) <<< 8) ||| (b.lsb % 256)

/-- Embedding of `uint16_t HTU21D::readValue(byte cmd)` after the trigger
command: run the polling loop; if `counter == MAX_COUNTER` return
`ERROR_I2C_TIMEOUT`; otherwise assemble the raw value, return
`ERROR_BAD_CRC` if `checkCRC(rawValue, checksum) != 0`, and otherwise
return `rawValue & 0xFFFC` (status bits zeroed). -/
def readValue (b : I2CBehavior) : Nat :=
  if (pollResult b).1 = MAX_COUNTER then ERROR_I2C_TIMEOUT
  else if checkCRC (rawValueOf b) (b.checksum % 256) ≠ 0 then ERROR_BAD_CRC
  else rawValueOf b &&& 0xFFFC

/-- The failure condition of `readValue` by execution path: either the
polling loop exited with `counter == MAX_COUNTER`, or the CRC check on the
assembled raw value failed. -/
def readValueFailed (b : I2CBehavior) : Prop :=
  (pollResult b).1 = MAX_COUNTER ∨ checkCRC (rawValueOf b) (b.checksum % 256) ≠ 0

instance (b : I2CBehavior) : Decidable (readValueFailed b) := by
  unfold readValueFailed; infer_instance

/-- The humidity conversion computed inline by `HTU21D::readHumidity`:
`rawHumidity * (125.0 / 65536.0) - 6.0`, idealised over `ℚ`. -/
def humidityConv (rawValue : ℚ) : ℚ := rawValue * (125 / 65536) - 6

/-- The temperature conversion computed inline by `HTU21D::readTemperature`:
`rawTemperature * (175.72 / 65536.0) - 46.85`, idealised over `ℚ` with the
decimal literals as exact rationals. -/
def temperatureConv (rawValue : ℚ) : ℚ := rawValue * (17572 / 100 / 65536) - 4685 / 100

/-- Embedding of `float HTU21D::readHumidity(void)`: call `readValue`; if the
result equals `ERROR_I2C_TIMEOUT` or `ERROR_BAD_CRC`, return it (converted to
`float`, here `ℚ`); otherwise convert to relative humidity. -/
def readHumidity (b : I2CBehavior) : ℚ :=
  let rawHumidity := readValue b
  if rawHumidity = ERROR_I2C_TIMEOUT ∨ rawHumidity = ERROR_BAD_CRC then (rawHumidity : ℚ)
  else humidityConv (rawHumidity : ℚ)

/-- Embedding of `float HTU21D::readTemperature(void)`: call `readValue`; if
the result equals `ERROR_I2C_TIMEOUT` or `ERROR_BAD_CRC`, return it
(converted to `float`, here `ℚ`); otherwise convert to degrees Celsius. -/
def readTemperature (b : I2CBehavior) : ℚ :=
  let rawTemperature := readValue b
  if rawTemperature = ERROR_I2C_TIMEOUT ∨ rawTemperature = ERROR_BAD_CRC then (rawTemperature : ℚ)
  else temperatureConv (rawTemperature : ℚ)

/-- The register value `HTU21D::setResolution` writes back, as a function of
the register value read (`userRegister`, a `byte`) and the `resolution`
argument: `userRegister &= B01111110; resolution &= B10000001;
userRegister |= resolution`. -/
def setResolutionReg (userRegister resolution : Nat) : Nat :=
  (userRegister &&& 0x7E) ||| (resolution &&& 0x81)

/-- Transport behavior that never reports 3 available bytes: a disconnected
or forever-silent sensor. -/
def silentBehavior : I2CBehavior := ⟨fun _ => 0, 0, 0, 0⟩

/-- Transport behavior that is ready immediately and delivers the datasheet
end-to-end vector bytes `0x4E 0x85 0x6B` (spec §8). -/
def okBehavior : I2CBehavior := ⟨fun _ => 3, 0x4E, 0x85, 0x6B⟩

/-- Transport behavior that is ready immediately but delivers a corrupted
checksum byte for the message `0x4E85`. -/
def badCrcBehavior : I2CBehavior := ⟨fun _ => 3, 0x4E, 0x85, 0x6A⟩

/-- Transport behavior whose 3 bytes become available only on the tenth
(final permitted) polling attempt, with a valid checksum. -/
def lastAttemptBehavior : I2CBehavior := ⟨fun k => if k = 9 then 3 else 0, 0x4E, 0x85, 0x6B⟩

/-! Helper lemmas about the CRC division loop. -/

/-- XOR-cancellation on the left: `(a ^^^ b) ^^^ a = b`. -/
theorem xor_xor_left (a b : Nat) : (a ^^^ b) ^^^ a = b := by
  rw [Nat.xor_comm a b, Nat.xor_assoc, Nat.xor_self, Nat.xor_zero]

/-- XOR-cancellation inside: `a ^^^ (a ^^^ b) = b`. -/
theorem xor_xor_inner (a b : Nat) : a ^^^ (a ^^^ b) = b := by
  rw [← Nat.xor_assoc, Nat.xor_self, Nat.zero_xor]

/-- A byte has no set bit at position 8 or above. -/
theorem byte_testBit_false {c i : Nat} (hc : c < 256) (hi : 8 ≤ i) : c.testBit i = false :=
  Nat.testBit_lt_two_pow
    (calc c < 256 := hc
      _ = 2 ^ 8 := rfl
      _ ≤ 2 ^ i := Nat.pow_le_pow_right (by norm_num) hi)

/-- One round of the CRC loop is GF(2)-linear in the remainder. -/
theorem crcStep_xor (k d r1 r2 : Nat) :
    (if (r1 ^^^ r2).testBit k then (r1 ^^^ r2) ^^^ d else r1 ^^^ r2) =
      (if r1.testBit k then r1 ^^^ d else r1) ^^^ (if r2.testBit k then r2 ^^^ d else r2) := by
  by_cases h1 : r1.testBit k = true <;> by_cases h2 : r2.testBit k = true
  · have hc : (r1 ^^^ r2).testBit k = false := by
      rw [Nat.testBit_xor, h1, h2]; rfl
    rw [if_neg (by simp [hc]), if_pos h1, if_pos h2,
      Nat.xor_assoc r1 d (r2 ^^^ d), Nat.xor_comm r2 d, xor_xor_inner]
  · have hb2 : r2.testBit k = false := by simpa using h2
    have hc : (r1 ^^^ r2).testBit k = true := by
      rw [Nat.testBit_xor, h1, hb2]; rfl
    rw [if_pos hc, if_pos h1, if_neg (by simp [hb2]),
      Nat.xor_assoc r1 r2 d, Nat.xor_comm r2 d, ← Nat.xor_assoc]
  · have hb1 : r1.testBit k = false := by simpa using h1
    have hc : (r1 ^^^ r2).testBit k = true := by
      rw [Nat.testBit_xor, hb1, h2]; rfl
    rw [if_pos hc, if_pos h2, if_neg (by simp [hb1]), Nat.xor_assoc]
  · have hb1 : r1.testBit k = false := by simpa using h1
    have hb2 : r2.testBit k = false := by simpa using h2
    have hc : (r1 ^^^ r2).testBit k = false := by
      rw [Nat.testBit_xor, hb1, hb2]; rfl
    rw [if_neg (by simp [hc]), if_neg (by simp [hb1]), if_neg (by simp [hb2])]

/-- The CRC division loop is GF(2)-linear in the remainder. -/
theorem crcRun_xor : ∀ (n d r1 r2 : Nat),
    crcRun (r1 ^^^ r2) d n = crcRun r1 d n ^^^ crcRun r2 d n := by
  intro n
  induction n with
  | zero => intro d r1 r2; rfl
  | succ n ih =>
    intro d r1 r2
    simp only [crcRun]
    rw [crcStep_xor, ih]

/-- A remainder already below `2^8` is left unchanged by the loop: every
examined bit position is at least 8. -/
theorem crcRun_small : ∀ (n d c : Nat), c < 256 → crcRun c d n = c := by
  intro n
  induction n with
  | zero => intro d c hc; rfl
  | succ n ih =>
    intro d c hc
    have hbit : c.testBit (n + 8) = false := byte_testBit_false hc (by omega)
    simp only [crcRun, hbit, Bool.false_eq_true, if_false]
    exact ih (d >>> 1) c hc

/-- A value in `[2^k, 2^(k+1))` has bit `k` set. -/
theorem testBit_of_bounds {d k : Nat} (h1 : 2 ^ k ≤ d) (h2 : d < 2 ^ (k + 1)) :
    d.testBit k = true := by
  rw [Nat.testBit_to_div_mod]
  have hpos : 0 < 2 ^ k := Nat.two_pow_pos k
  have hq1 : 1 ≤ d / 2 ^ k := (Nat.le_div_iff_mul_le hpos).2 (by simpa using h1)
  have hq2 : d / 2 ^ k < 2 := by
    rw [Nat.div_lt_iff_lt_mul hpos]
    have hp := Nat.pow_succ 2 k
    omega
  have heq : d / 2 ^ k = 1 := by omega
  rw [heq]
  decide

/-- With the divisor's leading set bit tracking the examined bit position,
each round clears the examined bit, so after all rounds the remainder is
below `2^8`.  This matches the source comment: "The remaining 8 are our
remainder". -/
theorem crcRun_lt : ∀ (n r d : Nat), r < 2 ^ (n + 8) → 2 ^ (n + 7) ≤ d → d < 2 ^ (n + 8) →
    crcRun r d n < 256 := by
  intro n
  induction n with
  | zero => intro r d hr _ _; exact hr
  | succ n ih =>
    intro r d hr hd1 hd2
    simp only [crcRun]
    have hr' : r < 2 ^ (n + 9) := hr
    have hd1' : 2 ^ (n + 8) ≤ d := hd1
    have hd2' : d < 2 ^ (n + 9) := hd2
    have hdbit : d.testBit (n + 8) = true := testBit_of_bounds hd1' hd2'
    have hstep : (if r.testBit (n + 8) then r ^^^ d else r) < 2 ^ (n + 8) := by
      by_cases hbit : r.testBit (n + 8) = true
      · rw [if_pos hbit]
        apply Nat.lt_pow_two_of_testBit
        intro i hi
        rw [Nat.testBit_xor]
        rcases Nat.eq_or_lt_of_le hi with heq | hlt
        · rw [← heq, hbit, hdbit]; rfl
        · rw [Nat.testBit_lt_two_pow
              (lt_of_lt_of_le hr' (Nat.pow_le_pow_right (by norm_num) (by omega))),
            Nat.testBit_lt_two_pow
              (lt_of_lt_of_le hd2' (Nat.pow_le_pow_right (by norm_num) (by omega)))]
          rfl
      · rw [if_neg hbit]
        rw [Bool.not_eq_true] at hbit
        apply Nat.lt_pow_two_of_testBit
        intro i hi
        rcases Nat.eq_or_lt_of_le hi with heq | hlt
        · rw [← heq]; exact hbit
        · exact Nat.testBit_lt_two_pow
            (lt_of_lt_of_le hr' (Nat.pow_le_pow_right (by norm_num) (by omega)))
    apply ih _ _ hstep
    · show 2 ^ (n + 7) ≤ d / 2
      rw [Nat.le_div_iff_mul_le (by norm_num)]
      have hp := Nat.pow_succ 2 (n + 7)
      have hq : (2 : Nat) ^ (n + 8) = 2 ^ (n + 7 + 1) := rfl
      omega
    · show d / 2 < 2 ^ (n + 8)
      rw [Nat.div_lt_iff_lt_mul (by norm_num)]
      have hp := Nat.pow_succ 2 (n + 8)
      have hq : (2 : Nat) ^ (n + 9) = 2 ^ (n + 8 + 1) := rfl
      omega

/-- ORing a byte into an 8-bit-shifted value is a disjoint OR, hence XOR. -/
theorem shiftLeft8_or_eq_xor (a c : Nat) (hc : c < 256) :
    (a <<< 8) ||| c = (a <<< 8) ^^^ c := by
  apply Nat.eq_of_testBit_eq
  intro i
  simp only [Nat.testBit_or, Nat.testBit_xor, Nat.testBit_shiftLeft]
  by_cases hi : 8 ≤ i
  · have hcbit : c.testBit i = false := byte_testBit_false hc hi
    simp [hcbit]
  · simp [hi]

/-- Left shift by 8 distributes over XOR. -/
theorem xor_shiftLeft8 (a b : Nat) : (a ^^^ b) <<< 8 = (a <<< 8) ^^^ (b <<< 8) := by
  apply Nat.eq_of_testBit_eq
  intro i
  simp only [Nat.testBit_xor, Nat.testBit_shiftLeft]
  by_cases hi : 8 ≤ i <;> simp [hi]

/-- A 16-bit value shifted left by 8 bits fits in 24 bits. -/
theorem shl8_lt {v : Nat} (hv : v < 65536) : v <<< 8 < 2 ^ 24 := by
  calc v <<< 8 = v * 2 ^ 8 := Nat.shiftLeft_eq v 8
    _ < 65536 * 2 ^ 8 := (Nat.mul_lt_mul_right (by norm_num)).2 hv
    _ = 2 ^ 24 := by norm_num

/-- The final CRC remainder of any 24-bit dividend is below 256, so the
`byte` cast on the return of `checkCRC` loses nothing. -/
theorem crcRaw_lt {x : Nat} (hx : x < 2 ^ 24) : crcRun x SHIFTED_DIVISOR 16 < 256 :=
  crcRun_lt 16 x SHIFTED_DIVISOR hx (by norm_num [SHIFTED_DIVISOR])
    (by norm_num [SHIFTED_DIVISOR])

/-- The forward checksum of a 16-bit message is the raw division remainder. -/
theorem crc8_eq {v : Nat} (hv : v < 65536) :
    crc8 v = crcRun (v <<< 8) SHIFTED_DIVISOR 16 := by
  show crcRun (((v % 65536) <<< 8) ||| (0 % 256)) SHIFTED_DIVISOR 16 % 256 =
    crcRun (v <<< 8) SHIFTED_DIVISOR 16
  rw [Nat.mod_eq_of_lt hv, Nat.zero_mod, Nat.or_zero]
  exact Nat.mod_eq_of_lt (crcRaw_lt (shl8_lt hv))

/-- The forward checksum always fits in a byte. -/
theorem crc8_lt (v : Nat) : crc8 v < 256 :=
  Nat.mod_lt _ (by norm_num)

/-- Characterisation of `checkCRC` on in-range inputs: the returned byte is
the forward checksum of the message XORed with the transmitted check byte,
so it is zero exactly when the check byte matches the forward checksum. -/
theorem checkCRC_char (v c : Nat) (hv : v < 65536) (hc : c < 256) :
    checkCRC v c = crc8 v ^^^ c := by
  show crcRun (((v % 65536) <<< 8) ||| (c % 256)) SHIFTED_DIVISOR 16 % 256 = crc8 v ^^^ c
  rw [Nat.mod_eq_of_lt hv, Nat.mod_eq_of_lt hc, shiftLeft8_or_eq_xor v c hc,
    crcRun_xor 16 SHIFTED_DIVISOR (v <<< 8) c, crcRun_small 16 SHIFTED_DIVISOR c hc,
    ← crc8_eq hv]
  have h8 : crc8 v ^^^ c < 2 ^ 8 := Nat.xor_lt_two_pow (crc8_lt v) hc
  exact Nat.mod_eq_of_lt h8

/-- C4: `checkCRC` accepts each of the three documented datasheet vectors:
value `0x00DC` with checksum `0x79`, value `0x683A` with checksum `0x7C`,
and value `0x4E85` with checksum `0x6B` all validate (returns 0). -/
theorem checkCRC_datasheet_vectors :
    checkCRC 0xDC 0x79 = 0 ∧ checkCRC 0x683A 0x7C = 0 ∧ checkCRC 0x4E85 0x6B = 0 := by
  decide

/-- C5: every (value, checksum) pair produced by the forward CRC-8
computation (polynomial `0x0131`) is accepted by `checkCRC`, and flipping
any single bit of the 16-bit value, or any single bit of the 8-bit
checksum, makes `checkCRC` reject the pair. -/
theorem checkCRC_roundtrip_single_bit (v : Nat) (hv : v < 65536) :
    checkCRC v (crc8 v) = 0 ∧
    (∀ j, j < 16 → checkCRC (v ^^^ (1 <<< j)) (crc8 v) ≠ 0) ∧
    (∀ j, j < 8 → checkCRC v (crc8 v ^^^ (1 <<< j)) ≠ 0) := by
  have hv' : v < 2 ^ 16 := hv
  have hE : ∀ j, j < 16 → crcRun (2 ^ (j + 8)) SHIFTED_DIVISOR 16 ≠ 0 := by decide
  refine ⟨?_, ?_, ?_⟩
  · rw [checkCRC_char v (crc8 v) hv (crc8_lt v), Nat.xor_self]
  · intro j hj
    have h1j : (1 : Nat) <<< j = 2 ^ j := by rw [Nat.shiftLeft_eq, one_mul]
    have h2j : (2 : Nat) ^ j < 2 ^ 16 := Nat.pow_lt_pow_right (by norm_num) hj
    have hvj : v ^^^ (1 <<< j) < 65536 := by
      rw [h1j]; exact Nat.xor_lt_two_pow hv' h2j
    rw [checkCRC_char _ (crc8 v) hvj (crc8_lt v), crc8_eq hvj, h1j,
      xor_shiftLeft8 v (2 ^ j), crcRun_xor 16 SHIFTED_DIVISOR (v <<< 8) (2 ^ j <<< 8),
      ← crc8_eq hv, xor_xor_left]
    have h2 : (2 : Nat) ^ j <<< 8 = 2 ^ (j + 8) := by
      rw [Nat.shiftLeft_eq, ← Nat.pow_add]
    rw [h2]
    exact hE j hj
  · intro j hj
    have h1j : (1 : Nat) <<< j = 2 ^ j := by rw [Nat.shiftLeft_eq, one_mul]
    have h2j : (2 : Nat) ^ j < 2 ^ 8 := Nat.pow_lt_pow_right (by norm_num) hj
    have hc : crc8 v ^^^ (1 <<< j) < 256 := by
      rw [h1j]
      have h8 : crc8 v ^^^ 2 ^ j < 2 ^ 8 := Nat.xor_lt_two_pow (crc8_lt v) h2j
      exact h8
    rw [checkCRC_char v _ hv hc, h1j, xor_xor_inner]
    exact (Nat.two_pow_pos j).ne'

/-! Lemmas about the polling loop and the two read paths. -/

/-- The final `counter` never exceeds the starting counter plus the fuel. -/
theorem pollFuel_counter_le (avail : Nat → Nat) :
    ∀ (fuel counter toRead : Nat), (pollFuel avail fuel counter toRead).1 ≤ counter + fuel := by
  intro fuel
  induction fuel with
  | zero => intro counter toRead; exact Nat.le_refl counter
  | succ fuel ih =>
    intro counter toRead
    simp only [pollFuel]
    by_cases h : counter < MAX_COUNTER ∧ toRead ≠ 3
    · rw [if_pos h]
      calc (pollFuel avail fuel (counter + 1) (avail counter % 256)).1
          ≤ (counter + 1) + fuel := ih (counter + 1) _
        _ = counter + (fuel + 1) := by omega
    · rw [if_neg h]
      omega

/-- If no polling attempt ever reports 3 bytes, the loop runs its full
course and exits with `counter = MAX_COUNTER`. -/
theorem pollFuel_timeout (avail : Nat → Nat) (hav : ∀ k, avail k % 256 ≠ 3) :
    ∀ (fuel counter toRead : Nat), toRead ≠ 3 → counter + fuel = MAX_COUNTER →
      (pollFuel avail fuel counter toRead).1 = MAX_COUNTER := by
  intro fuel
  induction fuel with
  | zero => intro counter toRead _ hsum; exact hsum
  | succ fuel ih =>
    intro counter toRead ht hsum
    simp only [pollFuel]
    rw [if_pos ⟨by omega, ht⟩]
    exact ih (counter + 1) _ (hav counter) (by omega)

/-- On the success path (loop exited early, CRC matched), `readValue`
returns the assembled raw value with the two status bits masked off. -/
theorem readValue_success (b : I2CBehavior) (h : ¬ readValueFailed b) :
    readValue b = rawValueOf b &&& 0xFFFC := by
  unfold readValueFailed at h
  push_neg at h
  unfold readValue
  rw [if_neg h.1, if_neg (fun hne => hne h.2)]

/-- On the failure path, `readValue` returns one of the two sentinels. -/
theorem readValue_failed (b : I2CBehavior) (h : readValueFailed b) :
    readValue b = ERROR_I2C_TIMEOUT ∨ readValue b = ERROR_BAD_CRC := by
  unfold readValue
  by_cases h1 : (pollResult b).1 = MAX_COUNTER
  · rw [if_pos h1]; exact Or.inl rfl
  · rcases h with h | h
    · exact absurd h h1
    · rw [if_neg h1, if_pos h]; exact Or.inr rfl

/-- Masking with `0xFFFC` makes a value divisible by 4. -/
theorem and_FFFC_mod_four (x : Nat) : (x &&& 0xFFFC) % 4 = 0 := by
  have h4 : (4 : Nat) = 2 ^ 2 := rfl
  have hb0 : Nat.testBit 0xFFFC 0 = false := by decide
  have hb1 : Nat.testBit 0xFFFC 1 = false := by decide
  rw [h4]
  apply Nat.eq_of_testBit_eq
  intro i
  rw [Nat.zero_testBit, Nat.testBit_mod_two_pow, Nat.testBit_and]
  match i with
  | 0 => simp [hb0]
  | 1 => simp [hb1]
  | (k + 2) => simp [show ¬(k + 2 < 2) from by omega]

/-- Masking with `0xFFFC` clears bits 0 and 1. -/
theorem and_FFFC_testBit (x : Nat) :
    (x &&& 0xFFFC).testBit 0 = false ∧ (x &&& 0xFFFC).testBit 1 = false := by
  have hb0 : Nat.testBit 0xFFFC 0 = false := by decide
  have hb1 : Nat.testBit 0xFFFC 1 = false := by decide
  exact ⟨by rw [Nat.testBit_and, hb0, Bool.and_false],
    by rw [Nat.testBit_and, hb1, Bool.and_false]⟩

/-- When `readValue` did not return a sentinel, `readHumidity` converts. -/
theorem readHumidity_eq_conv (b : I2CBehavior) (h1 : readValue b ≠ ERROR_I2C_TIMEOUT)
    (h2 : readValue b ≠ ERROR_BAD_CRC) :
    readHumidity b = humidityConv (readValue b : ℚ) := by
  show (if readValue b = ERROR_I2C_TIMEOUT ∨ readValue b = ERROR_BAD_CRC
      then ((readValue b : ℚ)) else humidityConv (readValue b : ℚ)) =
    humidityConv (readValue b : ℚ)
  rw [if_neg (fun hor => hor.elim h1 h2)]

/-- When `readValue` did not return a sentinel, `readTemperature` converts. -/
theorem readTemperature_eq_conv (b : I2CBehavior) (h1 : readValue b ≠ ERROR_I2C_TIMEOUT)
    (h2 : readValue b ≠ ERROR_BAD_CRC) :
    readTemperature b = temperatureConv (readValue b : ℚ) := by
  show (if readValue b = ERROR_I2C_TIMEOUT ∨ readValue b = ERROR_BAD_CRC
      then ((readValue b : ℚ)) else temperatureConv (readValue b : ℚ)) =
    temperatureConv (readValue b : ℚ)
  rw [if_neg (fun hor => hor.elim h1 h2)]

/-- When `readValue` returned a sentinel, `readHumidity` passes it through
as a numeric value. -/
theorem readHumidity_eq_cast (b : I2CBehavior)
    (h : readValue b = ERROR_I2C_TIMEOUT ∨ readValue b = ERROR_BAD_CRC) :
    readHumidity b = (readValue b : ℚ) := by
  show (if readValue b = ERROR_I2C_TIMEOUT ∨ readValue b = ERROR_BAD_CRC
      then ((readValue b : ℚ)) else humidityConv (readValue b : ℚ)) = (readValue b : ℚ)
  rw [if_pos h]

/-- When `readValue` returned a sentinel, `readTemperature` passes it
through as a numeric value. -/
theorem readTemperature_eq_cast (b : I2CBehavior)
    (h : readValue b = ERROR_I2C_TIMEOUT ∨ readValue b = ERROR_BAD_CRC) :
    readTemperature b = (readValue b : ℚ) := by
  show (if readValue b = ERROR_I2C_TIMEOUT ∨ readValue b = ERROR_BAD_CRC
      then ((readValue b : ℚ)) else temperatureConv (readValue b : ℚ)) = (readValue b : ℚ)
  rw [if_pos h]

/-! Claim theorems. -/

/-- C1: evidence of a code bug in the polling ceiling.  For the transport
whose 3 bytes (a valid datasheet vector) become available exactly on the
tenth — the final permitted — polling attempt, the loop exits with
`toRead = 3` (the bytes were received) and `counter = MAX_COUNTER`, and
`readValue` nevertheless returns `ERROR_I2C_TIMEOUT` instead of
interpreting the 3 bytes, contradicting the claim that a success on any
attempt within the ceiling avoids `Timeout`. -/
theorem readValue_tenth_attempt_success_times_out :
    lastAttemptBehavior.avail 9 = 3 ∧
    (pollResult lastAttemptBehavior).2 = 3 ∧
    (pollResult lastAttemptBehavior).1 = MAX_COUNTER ∧
    checkCRC (rawValueOf lastAttemptBehavior) (lastAttemptBehavior.checksum % 256) = 0 ∧
    readValue lastAttemptBehavior = ERROR_I2C_TIMEOUT := by
  decide

/-- C9: the polling loop executes at most `MAX_COUNTER = 10` iterations for
every transport behavior, and when the transport never reports 3 available
bytes, `readValue` terminates with `ERROR_I2C_TIMEOUT` rather than hanging
(termination itself is structural: the embedding is a total function). -/
theorem polling_terminates (b : I2CBehavior) :
    (pollResult b).1 ≤ MAX_COUNTER ∧
    ((∀ k, b.avail k ≤ 3) → (∀ k, b.avail k ≠ 3) →
      readValue b = ERROR_I2C_TIMEOUT) := by
  constructor
  · have h := pollFuel_counter_le b.avail MAX_COUNTER 0 0
    show (pollFuel b.avail MAX_COUNTER 0 0).1 ≤ MAX_COUNTER
    omega
  · intro h3 hne
    have hav : ∀ k, b.avail k % 256 ≠ 3 := fun k => by
      rw [Nat.mod_eq_of_lt (lt_of_le_of_lt (h3 k) (by norm_num))]
      exact hne k
    have hpr : (pollResult b).1 = MAX_COUNTER :=
      pollFuel_timeout b.avail hav MAX_COUNTER 0 0 (by decide) (by omega)
    unfold readValue
    rw [if_pos hpr]

/-- Witness for C9 at the always-silent transport. -/
theorem polling_terminates_witness :
    readValue silentBehavior = ERROR_I2C_TIMEOUT :=
  (polling_terminates silentBehavior).2 (fun _ => Nat.zero_le 3)
    (fun _ => by simp [silentBehavior])

/-- C6: whenever `readValue` succeeds (no timeout, CRC ok), the returned
16-bit raw value has both of its least-significant status bits equal to
zero, for every MSB/LSB combination the transport delivers. -/
theorem readValue_success_status_bits_clear (b : I2CBehavior) (h : ¬ readValueFailed b) :
    (readValue b).testBit 0 = false ∧ (readValue b).testBit 1 = false := by
  rw [readValue_success b h]
  exact and_FFFC_testBit (rawValueOf b)

/-- Witness for C6 at the datasheet end-to-end vector transport. -/
theorem readValue_success_status_bits_clear_witness :
    (readValue okBehavior).testBit 0 = false ∧ (readValue okBehavior).testBit 1 = false :=
  readValue_success_status_bits_clear okBehavior (by decide)

/-- C10: the uint16 encoding inside `readValue` is unambiguous — every
successful return value is divisible by 4 while the sentinels 998 and 999
are congruent to 2 and 3 modulo 4, so a genuine reading never equals a
sentinel and the sentinel test in `readHumidity`/`readTemperature` always
proceeds to the conversion on a success. -/
theorem sentinel_encoding_unambiguous (b : I2CBehavior) (h : ¬ readValueFailed b) :
    readValue b % 4 = 0 ∧
    ERROR_I2C_TIMEOUT % 4 = 2 ∧ ERROR_BAD_CRC % 4 = 3 ∧
    readValue b ≠ ERROR_I2C_TIMEOUT ∧ readValue b ≠ ERROR_BAD_CRC ∧
    readHumidity b = humidityConv (readValue b : ℚ) ∧
    readTemperature b = temperatureConv (readValue b : ℚ) := by
  have hmod : readValue b % 4 = 0 := by
    rw [readValue_success b h]; exact and_FFFC_mod_four (rawValueOf b)
  have hne1 : readValue b ≠ ERROR_I2C_TIMEOUT := by
    intro he; rw [he] at hmod; norm_num [ERROR_I2C_TIMEOUT] at hmod
  have hne2 : readValue b ≠ ERROR_BAD_CRC := by
    intro he; rw [he] at hmod; norm_num [ERROR_BAD_CRC] at hmod
  exact ⟨hmod, by norm_num [ERROR_I2C_TIMEOUT], by norm_num [ERROR_BAD_CRC], hne1, hne2,
    readHumidity_eq_conv b hne1 hne2, readTemperature_eq_conv b hne1 hne2⟩

/-- Witness for C10 at the datasheet end-to-end vector transport. -/
theorem sentinel_encoding_unambiguous_witness :
    readValue okBehavior % 4 = 0 :=
  (sentinel_encoding_unambiguous okBehavior (by decide)).1

/-- C2 counterexample: the claim that failures are surfaced as a result
type distinct from success is false of this code — both failure kinds come
back through the very same numeric (`float`) channel as successful
readings, as the plain numeric values 998 and 999. -/
theorem failure_returned_as_numeric_sentinel :
    readHumidity silentBehavior = ((ERROR_I2C_TIMEOUT : Nat) : ℚ) ∧
    readHumidity silentBehavior = 998 ∧ readTemperature silentBehavior = 998 ∧
    readHumidity badCrcBehavior = 999 ∧ readTemperature badCrcBehavior = 999 := by
  have ht : readValue silentBehavior = ERROR_I2C_TIMEOUT := by decide
  have hc : readValue badCrcBehavior = ERROR_BAD_CRC := by decide
  have hh1 := readHumidity_eq_cast silentBehavior (Or.inl ht)
  have ht1 := readTemperature_eq_cast silentBehavior (Or.inl ht)
  have hh2 := readHumidity_eq_cast badCrcBehavior (Or.inr hc)
  have ht2 := readTemperature_eq_cast badCrcBehavior (Or.inr hc)
  rw [hh1, ht1, hh2, ht2, ht, hc]
  norm_num [ERROR_I2C_TIMEOUT, ERROR_BAD_CRC]

/-- C2 amended: `Timeout` and `CrcMismatch` are surfaced to the caller as
the sentinel numeric values 998 and 999 coerced into the same numeric
return type as a successful reading (not as a distinct result type); the
two failure kinds remain distinguishable only by those values. -/
theorem failures_coerced_to_sentinels (b : I2CBehavior) (h : readValueFailed b) :
    (readValue b = ERROR_I2C_TIMEOUT ∨ readValue b = ERROR_BAD_CRC) ∧
    readHumidity b = (readValue b : ℚ) ∧
    readTemperature b = (readValue b : ℚ) ∧
    ((readValue b : ℚ) = 998 ∨ (readValue b : ℚ) = 999) := by
  have hf := readValue_failed b h
  refine ⟨hf, readHumidity_eq_cast b hf, readTemperature_eq_cast b hf, ?_⟩
  rcases hf with hf | hf
  · left; rw [hf]; norm_num [ERROR_I2C_TIMEOUT]
  · right; rw [hf]; norm_num [ERROR_BAD_CRC]

/-- Witness for the amended C2 at the always-silent transport. -/
theorem failures_coerced_to_sentinels_witness :
    readHumidity silentBehavior = (readValue silentBehavior : ℚ) :=
  (failures_coerced_to_sentinels silentBehavior (by decide)).2.1

/-- Single-bit view of the register value written by `setResolution`. -/
theorem setResolutionReg_testBit (u r i : Nat) :
    (setResolutionReg u r).testBit i =
      ((u.testBit i && (0x7E : Nat).testBit i) || (r.testBit i && (0x81 : Nat).testBit i)) := by
  unfold setResolutionReg
  rw [Nat.testBit_or, Nat.testBit_and, Nat.testBit_and]

/-- C3 counterexample: the claim that `setResolution` changes only bits 7
and 1 is false — with initial register `0x00` and resolution argument
`0x01`, bit 0 (which is neither bit 7 nor bit 1) differs after the call. -/
theorem setResolution_changes_bit_zero :
    setResolutionReg 0x00 0x01 = 0x01 ∧
    (setResolutionReg 0x00 0x01).testBit 0 ≠ (0x00 : Nat).testBit 0 := by
  decide

/-- C3 amended: for every 8-bit initial register value and every resolution
argument, `setResolutionReg` changes only bits 7 and 0 (the HTU21D's actual
resolution bit positions, masks `B01111110`/`B10000001`) and leaves every
other bit identical to the pre-call value — a read-modify-write, never a
blind overwrite. -/
theorem setResolution_frame (userRegister resolution : Nat) (hreg : userRegister < 256) :
    ∀ i, i ≠ 0 → i ≠ 7 →
      (setResolutionReg userRegister resolution).testBit i = userRegister.testBit i := by
  intro i h0 h7
  rw [setResolutionReg_testBit]
  by_cases hi : 8 ≤ i
  · rw [byte_testBit_false hreg hi,
      byte_testBit_false (show (0x7E : Nat) < 256 by norm_num) hi,
      byte_testBit_false (show (0x81 : Nat) < 256 by norm_num) hi]
    simp
  · have hi8 : i < 8 := by omega
    interval_cases i
    · exact absurd rfl h0
    · simp [(by decide : Nat.testBit 0x7E 1 = true), (by decide : Nat.testBit 0x81 1 = false)]
    · simp [(by decide : Nat.testBit 0x7E 2 = true), (by decide : Nat.testBit 0x81 2 = false)]
    · simp [(by decide : Nat.testBit 0x7E 3 = true), (by decide : Nat.testBit 0x81 3 = false)]
    · simp [(by decide : Nat.testBit 0x7E 4 = true), (by decide : Nat.testBit 0x81 4 = false)]
    · simp [(by decide : Nat.testBit 0x7E 5 = true), (by decide : Nat.testBit 0x81 5 = false)]
    · simp [(by decide : Nat.testBit 0x7E 6 = true), (by decide : Nat.testBit 0x81 6 = false)]
    · exact absurd rfl h7

/-- Witness for the amended C3: bit 3 of a fully-set register survives a
resolution change. -/
theorem setResolution_frame_witness :
    (setResolutionReg 0xFF 0x81).testBit 3 = (0xFF : Nat).testBit 3 :=
  setResolution_frame 0xFF 0x81 (by decide) 3 (by decide) (by decide)

/-- C8: the unit conversions are the pure functions
`humidity(raw) = raw * (125 / 65536) - 6` and
`celsius(raw) = raw * (175.72 / 65536) - 46.85`; in particular
`humidity 0 = -6`, `humidity 65535 ≈ 118.998`, `celsius 0 = -46.85`, and
`celsius 65535 ≈ 128.87` (exactly, in the rational idealisation of the
source's float arithmetic). -/
theorem conversion_formulas_bounds :
    (∀ raw : ℚ, humidityConv raw = raw * (125 / 65536) - 6) ∧
    (∀ raw : ℚ, temperatureConv raw = raw * (17572 / 100 / 65536) - 4685 / 100) ∧
    humidityConv 0 = -6 ∧
    |humidityConv 65535 - 118998 / 1000| < 1 / 100 ∧
    temperatureConv 0 = -(4685 / 100) ∧
    |temperatureConv 65535 - 12887 / 100| < 1 / 100 := by
  refine ⟨fun raw => rfl, fun raw => rfl, ?_, ?_, ?_, ?_⟩ <;>
    norm_num [humidityConv, temperatureConv, abs_lt]

/-- C7: a failed `readHumidity` or `readTemperature` call returns 998 or
999, values outside the ranges a successful conversion can produce
(humidity values lie in `[-6, 119)`, temperatures in `[-46.85, 129)`), so
the two failure outcomes are always distinguishable from each other and
from every successful reading. -/
theorem failure_distinguishable_from_success (b : I2CBehavior) :
    (readValueFailed b →
      (readHumidity b = 998 ∨ readHumidity b = 999) ∧
      (readTemperature b = 998 ∨ readTemperature b = 999)) ∧
    (¬ readValueFailed b →
      -6 ≤ readHumidity b ∧ readHumidity b < 119 ∧
      readHumidity b ≠ 998 ∧ readHumidity b ≠ 999 ∧
      -(4685 / 100) ≤ readTemperature b ∧ readTemperature b < 129 ∧
      readTemperature b ≠ 998 ∧ readTemperature b ≠ 999) ∧
    (998 : ℚ) ≠ 999 := by
  refine ⟨?_, ?_, by norm_num⟩
  · intro h
    have hf := readValue_failed b h
    have hh := readHumidity_eq_cast b hf
    have ht := readTemperature_eq_cast b hf
    rcases hf with hf | hf
    · rw [hh, ht, hf]
      norm_num [ERROR_I2C_TIMEOUT]
    · rw [hh, ht, hf]
      norm_num [ERROR_BAD_CRC]
  · intro h
    have hs := readValue_success b h
    have hle : readValue b ≤ 65532 := by
      rw [hs]; exact Nat.and_le_right
    have hcast : ((readValue b : ℚ)) ≤ 65532 := by exact_mod_cast hle
    have hc0 : (0 : ℚ) ≤ (readValue b : ℚ) := Nat.cast_nonneg _
    have hmod : readValue b % 4 = 0 := by
      rw [hs]; exact and_FFFC_mod_four (rawValueOf b)
    have hne1 : readValue b ≠ ERROR_I2C_TIMEOUT := by
      intro he; rw [he] at hmod; norm_num [ERROR_I2C_TIMEOUT] at hmod
    have hne2 : readValue b ≠ ERROR_BAD_CRC := by
      intro he; rw [he] at hmod; norm_num [ERROR_BAD_CRC] at hmod
    have hH := readHumidity_eq_conv b hne1 hne2
    have hT := readTemperature_eq_conv b hne1 hne2
    have hlbH : -6 ≤ humidityConv (readValue b : ℚ) := by
      unfold humidityConv
      have hm := mul_nonneg hc0 (by norm_num : (0 : ℚ) ≤ 125 / 65536)
      linarith
    have hubH : humidityConv (readValue b : ℚ) < 119 := by
      unfold humidityConv
      have hm := mul_le_mul_of_nonneg_right hcast (by norm_num : (0 : ℚ) ≤ 125 / 65536)
      nlinarith
    have hlbT : -(4685 / 100) ≤ temperatureConv (readValue b : ℚ) := by
      unfold temperatureConv
      have hm := mul_nonneg hc0 (by norm_num : (0 : ℚ) ≤ 17572 / 100 / 65536)
      linarith
    have hubT : temperatureConv (readValue b : ℚ) < 129 := by
      unfold temperatureConv
      have hm := mul_le_mul_of_nonneg_right hcast (by norm_num : (0 : ℚ) ≤ 17572 / 100 / 65536)
      nlinarith
    refine ⟨by rw [hH]; exact hlbH, by rw [hH]; exact hubH, ?_, ?_,
      by rw [hT]; exact hlbT, by rw [hT]; exact hubT, ?_, ?_⟩
    · rw [hH]; intro he; rw [he] at hubH; norm_num at hubH
    · rw [hH]; intro he; rw [he] at hubH; norm_num at hubH
    · rw [hT]; intro he; rw [he] at hubT; norm_num at hubT
    · rw [hT]; intro he; rw [he] at hubT; norm_num at hubT

/-- Witness for C5 at the datasheet message `0x4E85`: its forward checksum
is accepted, and flipping bit 0 of the value or of the checksum is
rejected. -/
theorem checkCRC_roundtrip_single_bit_witness :
    checkCRC 0x4E85 (crc8 0x4E85) = 0 ∧
    checkCRC (0x4E85 ^^^ (1 <<< 0)) (crc8 0x4E85) ≠ 0 ∧
    checkCRC 0x4E85 (crc8 0x4E85 ^^^ (1 <<< 0)) ≠ 0 :=
  ⟨(checkCRC_roundtrip_single_bit 0x4E85 (by decide)).1,
   (checkCRC_roundtrip_single_bit 0x4E85 (by decide)).2.1 0 (by decide),
   (checkCRC_roundtrip_single_bit 0x4E85 (by decide)).2.2 0 (by decide)⟩

/-- Witness for C7: the failure branch at the always-silent transport and
the success branch at the datasheet vector transport. -/
theorem failure_distinguishable_from_success_witness :
    (readHumidity silentBehavior = 998 ∨ readHumidity silentBehavior = 999) ∧
    -6 ≤ readHumidity okBehavior :=
  ⟨((failure_distinguishable_from_success silentBehavior).1 (by decide)).1,
   ((failure_distinguishable_from_success okBehavior).2.1 (by decide)).1⟩

end HTU21D
